import Mathlib

/-!
Shallow embedding of the binance-db download orchestration engine
(src/utils.py, src/downloader.py, src/main.py).

Modelling conventions:
* The local filesystem is a map from path strings to `Option FileData`.
  `FileData` records the observable attributes the code inspects: byte
  size (`os.path.getsize`), number of lines (`readlines`), and whether
  reading the file succeeds (`readable = false` models the `except`
  branch of `is_download_needed`).
* `os.path.join a b` is modelled as `a ++ "/" ++ b` (the code never
  passes absolute second components or trailing slashes).
* Network responses are an oracle `Nat → HttpResp` giving the response
  of the i-th HTTP attempt of one `download_file` call.  A response is
  a 404, a `requests.RequestException` (transport errors and the
  `HTTPError` that `raise_for_status` throws on other non-2xx codes),
  or a 200 carrying an archive.
* An `Archive` records the data written to the zip path, whether
  `zipfile` can extract it (`zipfile.ZipFile` raises `BadZipFile` on a
  corrupt archive before extracting anything), and the member files it
  extracts on success.
* `removeFails = true` models `os.remove` raising `OSError`; this is an
  ordinary exception, so in `download_file` it is caught by the generic
  `except Exception` handler of the attempt loop (downloader.py:123).
* Sleeps and HTTP requests are recorded in an event trace:
  `Ev.sleepRate` is `time.sleep(self.rate_limit_delay)` and
  `Ev.sleepRetry` is `time.sleep(self.retry_delay)`.
-/

namespace BinanceDB

/-- Observable attributes of one file on disk. -/
structure FileData where
  size : Nat
  lines : Nat
  readable : Bool
deriving DecidableEq, Repr

/-- The filesystem: a map from paths to file contents. -/
def Fs : Type := String → Option FileData

/-- Functional update of the filesystem at one path. -/
def Fs.update (fs : Fs) (p : String) (v : Option FileData) : Fs :=
  fun q => if q = p then v else fs q

/-- The four data types that require an interval (utils.py:74-79,
downloader.py:159). -/
def klineTypes : List String :=
  ["indexPriceKlines", "klines", "markPriceKlines", "premiumIndexKlines"]

def isKlineType (data_type : String) : Bool :=
  klineTypes.contains data_type

/-- utils.py:68-86 `build_download_url`.  Raising `ValueError` is
modelled as `Except.error`. -/
def build_download_url (base_url data_type symbol date : String)
    (interval : Option String) : Except String String :=
  if isKlineType data_type then
    match interval with
    | none => Except.error ("Interval is required for " ++ data_type)
    | some iv =>
        Except.ok (base_url ++ data_type ++ "/" ++ symbol ++ "/" ++ iv ++ "/"
          ++ symbol ++ "-" ++ iv ++ "-" ++ date ++ ".zip")
  else
    Except.ok (base_url ++ data_type ++ "/" ++ symbol ++ "/"
      ++ symbol ++ "-" ++ data_type ++ "-" ++ date ++ ".zip")

/-- Modelled from the spec: the URL pattern claimed in spec.md section 6,
`GET {base_url}{data_type}/{symbol}[/{interval}]/{symbol}-[{interval}-]{data_type}-{date}.zip`,
in which the archive filename always contains the `data_type` segment.
Written only for comparison with `build_download_url`. -/
def build_download_url_spec (base_url data_type symbol date : String)
    (interval : Option String) : Except String String :=
  match interval with
  | some iv =>
      Except.ok (base_url ++ data_type ++ "/" ++ symbol ++ "/" ++ iv ++ "/"
        ++ symbol ++ "-" ++ iv ++ "-" ++ data_type ++ "-" ++ date ++ ".zip")
  | none =>
      Except.ok (base_url ++ data_type ++ "/" ++ symbol ++ "/"
        ++ symbol ++ "-" ++ data_type ++ "-" ++ date ++ ".zip")

/-- utils.py:89-98 `get_output_filename`. -/
def get_output_filename (symbol data_type date : String)
    (interval : Option String) (extension : String) : String :=
  match interval with
  | some iv =>
      symbol ++ "-" ++ data_type ++ "-" ++ iv ++ "-" ++ date ++ "." ++ extension
  | none =>
      symbol ++ "-" ++ data_type ++ "-" ++ date ++ "." ++ extension

/-- utils.py:158-167 `get_file_directory`. -/
def get_file_directory (data_type symbol : String) (interval : Option String)
    (base_dir : String) : String :=
  match interval with
  | some iv => base_dir ++ "/" ++ data_type ++ "/" ++ symbol ++ "/" ++ iv
  | none => base_dir ++ "/" ++ data_type ++ "/" ++ symbol

/-- utils.py:107-128 `is_download_needed`.  Returns `true` when the
download must proceed.  The `try` block returns `true` on any read
error (`readable = false`); a file smaller than 100 bytes or with at
most one line is treated as incomplete. -/
def is_download_needed (fs : Fs) (csv_path : String)
    (overwrite_existing : Bool) : Bool :=
  if overwrite_existing then true
  else
    match fs csv_path with
    | none => true
    | some fd =>
        if fd.size < 100 then true
        else if !fd.readable then true
        else decide (fd.lines ≤ 1)

/-- One download task handed to `BinanceDataDownloader.download_file`,
together with the configuration strings it reads. -/
structure TaskSpec where
  base_url : String
  output_dir : String
  symbol : String
  data_type : String
  date : String
  interval : Option String
deriving DecidableEq, Repr

def TaskSpec.file_dir (t : TaskSpec) : String :=
  get_file_directory t.data_type t.symbol t.interval t.output_dir

def TaskSpec.zip_path (t : TaskSpec) : String :=
  t.file_dir ++ "/" ++ get_output_filename t.symbol t.data_type t.date t.interval "zip"

def TaskSpec.csv_path (t : TaskSpec) : String :=
  t.file_dir ++ "/" ++ get_output_filename t.symbol t.data_type t.date t.interval "csv"

/-- Download/file-processing settings read in downloader.py:28-39. -/
structure DlConfig where
  retry_attempts : Nat
  auto_extract : Bool
  delete_zip : Bool
  overwrite_existing : Bool
deriving DecidableEq, Repr

/-- Observable side effects of one `download_file` call, in order. -/
inductive Ev where
  | sleepRate
  | httpGet
  | sleepRetry
deriving DecidableEq, Repr

/-- One archive as served by the remote store. -/
structure Archive where
  zipData : FileData
  extractable : Bool
  files : List (String × FileData)
deriving DecidableEq, Repr

/-- Outcome of one HTTP attempt. -/
inductive HttpResp where
  | notFound
  | reqError
  | ok (a : Archive)
deriving DecidableEq, Repr

/-- Result of one `download_file` call: the returned boolean, the final
filesystem, and the trace of sleeps and HTTP requests. -/
structure DlResult where
  ok : Bool
  fs : Fs
  trace : List Ev

/-- downloader.py:138-139 `zip_ref.extractall(extract_dir)`: writes every
member file into the extraction directory. -/
def extractInto (fs : Fs) (extract_dir : String)
    (files : List (String × FileData)) : Fs :=
  files.foldl (fun acc p => acc.update (extract_dir ++ "/" ++ p.1) (some p.2)) fs

/-- downloader.py:71-127, the retry loop of `download_file`.
`remaining` is the number of loop iterations left (`retry_attempts -
attempt`); `attempt` indexes the oracle.  The Python test
`attempt < self.retry_attempts - 1` holds exactly when `remaining > 1`
at entry of the iteration, i.e. `remaining' > 0` after the pattern
`remaining = remaining' + 1`. -/
def attemptLoop (cfg : DlConfig) (resp : Nat → HttpResp) (removeFails : Bool)
    (extract_dir zip_path : String) :
    Nat → Nat → Fs → List Ev → DlResult
  | 0, _, fs, tr => ⟨false, fs, tr⟩
  | remaining + 1, attempt, fs, tr =>
      let tr := tr ++ [Ev.sleepRate, Ev.httpGet]
      match resp attempt with
      | HttpResp.notFound => ⟨false, fs, tr⟩
      | HttpResp.reqError =>
          if 0 < remaining then
            attemptLoop cfg resp removeFails extract_dir zip_path
              remaining (attempt + 1) fs (tr ++ [Ev.sleepRetry])
          else ⟨false, fs, tr⟩
      | HttpResp.ok a =>
          let fs1 := fs.update zip_path (some a.zipData)
          if cfg.auto_extract then
            if a.extractable then
              let fs2 := extractInto fs1 extract_dir a.files
              if cfg.delete_zip then
                if removeFails then ⟨false, fs2, tr⟩
                else ⟨true, fs2.update zip_path none, tr⟩
              else ⟨true, fs2, tr⟩
            else ⟨false, fs1, tr⟩
          else ⟨true, fs1, tr⟩

/-! ### Dates (utils.py:24-41 `generate_date_range`)

The Python code uses `datetime.strptime(_, "%Y-%m-%d")`,
`timedelta(days=1)` and `strftime`.  These library collaborators are
modelled by a proleptic Gregorian calendar: `parseDate` accepts exactly
the strings `strptime` accepts (4-digit year, 1- or 2-digit month and
day, calendar-valid, year at least `datetime.MINYEAR = 1`), `nextDate`
adds one day, and `formatDate` zero-pads.  `toRataDie` is the day
ordinal used to model `datetime` comparison (for calendar-valid dates
it is the usual day count, so `≤` on ordinals is `datetime` order);
its day component is clamped to the month length so that `nextDate`
strictly increases it on every input, which gives termination of the
date-range loop. -/

def isLeap (y : Nat) : Bool := y % 4 == 0 && (y % 100 != 0 || y % 400 == 0)

def daysInMonth (y m : Nat) : Nat :=
  if m = 1 ∨ m = 3 ∨ m = 5 ∨ m = 7 ∨ m = 8 ∨ m = 10 ∨ m = 12 then 31
  else if m = 4 ∨ m = 6 ∨ m = 9 ∨ m = 11 then 30
  else if m = 2 then (if isLeap y then 29 else 28) else 0

def daysBeforeMonth (y : Nat) : Nat → Nat
  | 0 => 0
  | m + 1 => daysBeforeMonth y m + daysInMonth y m

/-- Number of leap years strictly before year `y` (year 0 counted as
leap, as in the proleptic Gregorian calendar). -/
def leapsBefore : Nat → Nat
  | 0 => 0
  | y + 1 => 1 + y / 4 - y / 100 + y / 400

structure Date where
  y : Nat
  m : Nat
  d : Nat
deriving DecidableEq, Repr

/-- Day ordinal of a date; models `datetime` chronological order. -/
def toRataDie (dt : Date) : Nat :=
  365 * dt.y + leapsBefore dt.y + daysBeforeMonth dt.y dt.m
    + min dt.d (daysInMonth dt.y dt.m)

/-- `current + timedelta(days=1)` at calendar level. -/
def nextDate (dt : Date) : Date :=
  if dt.d < daysInMonth dt.y dt.m then ⟨dt.y, dt.m, dt.d + 1⟩
  else if dt.m < 12 then ⟨dt.y, dt.m + 1, 1⟩
  else ⟨dt.y + 1, 1, 1⟩

lemma daysInMonth_congr (y y' m : Nat) (h : isLeap y = isLeap y') :
    daysInMonth y m = daysInMonth y' m := by
  unfold daysInMonth; rw [h]

lemma daysBeforeMonth_succ (y m : Nat) :
    daysBeforeMonth y (m + 1) = daysBeforeMonth y m + daysInMonth y m := rfl

lemma daysBeforeMonth_congr (y y' : Nat) (h : isLeap y = isLeap y') (m : Nat) :
    daysBeforeMonth y m = daysBeforeMonth y' m := by
  induction m with
  | zero => rfl
  | succ k ih =>
      rw [daysBeforeMonth_succ, daysBeforeMonth_succ, ih, daysInMonth_congr y y' k h]

lemma daysBeforeMonth_twelve (y : Nat) :
    daysBeforeMonth y 12 = 334 + (if isLeap y then 1 else 0) := by
  cases hL : isLeap y
  · rw [daysBeforeMonth_congr y 1 (by rw [hL]; rfl) 12]; decide
  · rw [daysBeforeMonth_congr y 4 (by rw [hL]; rfl) 12]; decide

lemma leapsBefore_succ (y : Nat) :
    leapsBefore (y + 1) = leapsBefore y + (if isLeap y then 1 else 0) := by
  cases y with
  | zero => decide
  | succ z =>
      by_cases hL : isLeap (z + 1) = true
      · have hm := hL
        simp only [isLeap, Bool.and_eq_true, Bool.or_eq_true, beq_iff_eq, bne_iff_ne,
          ne_eq] at hm
        rw [if_pos hL]
        clear hL
        show 1 + (z + 1) / 4 - (z + 1) / 100 + (z + 1) / 400
            = (1 + z / 4 - z / 100 + z / 400) + 1
        omega
      · have hm := hL
        simp only [isLeap, Bool.and_eq_true, Bool.or_eq_true, beq_iff_eq, bne_iff_ne,
          ne_eq, not_and, not_or, not_not] at hm
        rw [if_neg hL]
        clear hL
        show 1 + (z + 1) / 4 - (z + 1) / 100 + (z + 1) / 400
            = (1 + z / 4 - z / 100 + z / 400) + 0
        omega

lemma one_le_daysInMonth (y m : Nat) (h1 : 1 ≤ m) (h2 : m ≤ 12) :
    1 ≤ daysInMonth y m := by
  unfold daysInMonth
  split
  · omega
  · split
    · omega
    · split
      · split <;> omega
      · omega

lemma daysInMonth_of_gt_12 (y m : Nat) (h : 13 ≤ m) : daysInMonth y m = 0 := by
  unfold daysInMonth
  split
  · omega
  · split
    · omega
    · split
      · omega
      · rfl

lemma daysBeforeMonth_of_ge_13 (y m : Nat) (h : 13 ≤ m) :
    daysBeforeMonth y m = daysBeforeMonth y 13 := by
  induction m with
  | zero => omega
  | succ k ih =>
      rcases Nat.lt_or_ge k 13 with hk | hk
      · have hk13 : k + 1 = 13 := by omega
        rw [hk13]
      · rw [daysBeforeMonth_succ, daysInMonth_of_gt_12 y k hk, ih (by omega)]
        omega

/-- Adding one day advances the day ordinal by exactly one (for any
month in range; the day may be arbitrary thanks to the clamp). -/
lemma toRataDie_nextDate (dt : Date) (h : dt.m ≤ 12) :
    toRataDie (nextDate dt) = toRataDie dt + 1 := by
  obtain ⟨y, m, d⟩ := dt
  simp only at h
  by_cases h1 : d < daysInMonth y m
  · simp only [nextDate, h1, if_pos, toRataDie]
    have e1 : min (d + 1) (daysInMonth y m) = d + 1 := by omega
    have e2 : min d (daysInMonth y m) = d := by omega
    simp only at e1 e2 ⊢
    omega
  · by_cases h2 : m < 12
    · simp only [nextDate, h1, if_neg, if_pos h2, ite_false]
      simp only [toRataDie]
      rw [daysBeforeMonth_succ]
      have h1' : 1 ≤ daysInMonth y (m + 1) :=
        one_le_daysInMonth y (m + 1) (by omega) (by omega)
      have e1 : min 1 (daysInMonth y (m + 1)) = 1 := by omega
      have e2 : min d (daysInMonth y m) = daysInMonth y m := by omega
      omega
    · have hm : m = 12 := by omega
      subst hm
      have e3 : daysInMonth y 12 = 31 := rfl
      have hnext : nextDate ⟨y, 12, d⟩ = ⟨y + 1, 1, 1⟩ := by
        simp [nextDate, e3]
        omega
      rw [hnext]
      simp only [toRataDie]
      have e1 : daysBeforeMonth (y + 1) 1 = 0 := rfl
      have e2 : daysInMonth (y + 1) 1 = 31 := rfl
      have e4 : min d (daysInMonth y 12) = 31 := by rw [e3]; omega
      have e5 := daysBeforeMonth_twelve y
      have e6 := leapsBefore_succ y
      rw [e1, e2, e4, e5, e6]
      cases isLeap y <;> simp <;> omega

/-- Strict increase on every input, used for loop termination. -/
lemma toRataDie_lt_nextDate (dt : Date) : toRataDie dt < toRataDie (nextDate dt) := by
  rcases le_or_lt dt.m 12 with h | h
  · rw [toRataDie_nextDate dt h]; omega
  · obtain ⟨y, m, d⟩ := dt
    simp only at h
    have hd0 : daysInMonth y m = 0 := daysInMonth_of_gt_12 y m (by omega)
    have hnext : nextDate ⟨y, m, d⟩ = ⟨y + 1, 1, 1⟩ := by
      simp [nextDate, hd0]
      omega
    rw [hnext]
    simp only [toRataDie]
    have e1 : daysBeforeMonth (y + 1) 1 = 0 := rfl
    have e2 : daysInMonth (y + 1) 1 = 31 := rfl
    have e3 : daysBeforeMonth y m = daysBeforeMonth y 13 :=
      daysBeforeMonth_of_ge_13 y m (by omega)
    have e4 : daysBeforeMonth y 13 = daysBeforeMonth y 12 + 31 := by
      rw [daysBeforeMonth_succ]; rfl
    have e5 := daysBeforeMonth_twelve y
    have e6 := leapsBefore_succ y
    rw [e1, e2, e3, e4, e5, e6, hd0]
    cases isLeap y <;> simp <;> omega

def pad2 (n : Nat) : String := if n < 10 then "0" ++ toString n else toString n

def pad4 (n : Nat) : String :=
  if n < 10 then "000" ++ toString n
  else if n < 100 then "00" ++ toString n
  else if n < 1000 then "0" ++ toString n
  else toString n

/-- `current.strftime("%Y-%m-%d")`. -/
def formatDate (dt : Date) : String :=
  pad4 dt.y ++ "-" ++ pad2 dt.m ++ "-" ++ pad2 dt.d

/-- utils.py:35-39, the `while current <= end` accumulation loop. -/
def dateRangeLoop (fin cur : Date) : List String :=
  if toRataDie cur ≤ toRataDie fin then
    formatDate cur :: dateRangeLoop fin (nextDate cur)
  else []
termination_by toRataDie fin + 1 - toRataDie cur
decreasing_by
  have := toRataDie_lt_nextDate cur
  omega

lemma dateRangeLoop_len_aux (fin : Date) (k : Nat) :
    ∀ cur : Date, cur.m ≤ 12 → toRataDie fin + 1 - toRataDie cur = k →
      (dateRangeLoop fin cur).length = k := by
  induction k with
  | zero =>
      intro cur hm hk
      rw [dateRangeLoop]
      rw [if_neg (by omega)]
      rfl
  | succ n ih =>
      intro cur hm hk
      rw [dateRangeLoop]
      rw [if_pos (by omega)]
      have hm' : (nextDate cur).m ≤ 12 := by
        unfold nextDate
        split
        · exact hm
        · split
          · show cur.m + 1 ≤ 12
            omega
          · show (1 : Nat) ≤ 12
            omega
      have := toRataDie_nextDate cur hm
      simp only [List.length_cons]
      rw [ih (nextDate cur) hm' (by omega)]

/-- The number of dates the range loop produces is the inclusive day
count of the range. -/
lemma dateRangeLoop_length (fin cur : Date) (hm : cur.m ≤ 12) :
    (dateRangeLoop fin cur).length = toRataDie fin + 1 - toRataDie cur :=
  dateRangeLoop_len_aux fin _ cur hm rfl

/-- Split a character list at every occurrence of `c` (the semantics of
`str.split` at separator `c`, written structurally so that it
evaluates by reduction). -/
def splitOnChar (c : Char) : List Char → List (List Char)
  | [] => [[]]
  | x :: xs =>
      match splitOnChar c xs, decide (x = c) with
      | r, true => [] :: r
      | [], false => [[x]]
      | h :: t, false => (x :: h) :: t

/-- Value of a decimal digit string. -/
def natOfDigits (l : List Char) : Nat :=
  l.foldl (fun acc ch => 10 * acc + (ch.toNat - 48)) 0

/-- `datetime.strptime(s, "%Y-%m-%d")`: a 4-digit year, 1- or 2-digit
month and day separated by literal dashes, the whole string consumed,
month in 1..12, day in 1..days-of-month, year at least 1
(`datetime.MINYEAR`); every violation raises `ValueError`, modelled
as `none`. -/
def parseDate (s : String) : Option Date :=
  match splitOnChar '-' s.data with
  | [ys, ms, ds] =>
      if ys.length = 4 ∧ ys.all Char.isDigit
          ∧ 1 ≤ ms.length ∧ ms.length ≤ 2 ∧ ms.all Char.isDigit
          ∧ 1 ≤ ds.length ∧ ds.length ≤ 2 ∧ ds.all Char.isDigit then
        let y := natOfDigits ys
        let m := natOfDigits ms
        let d := natOfDigits ds
        if 1 ≤ y ∧ 1 ≤ m ∧ m ≤ 12 ∧ 1 ≤ d ∧ d ≤ daysInMonth y m then
          some ⟨y, m, d⟩
        else none
      else none
  | _ => none

/-- `end_date.lower() == "latest"`. -/
def isLatest (s : String) : Bool := s.data.map Char.toLower == "latest".data

/-- Python exceptions that can escape `generate_download_tasks`. -/
inductive PyErr where
  | valueError
  | indexError
deriving DecidableEq, Repr

/-- utils.py:24-41 `generate_date_range`.  `end_date == "latest"`
(case-insensitively) is replaced by `today` (`datetime.now()`
formatted); a `strptime` failure raises `ValueError`. -/
def generate_date_range (today start_date end_date : String) :
    Except PyErr (List String) :=
  let endStr := if isLatest end_date then today else end_date
  match parseDate start_date with
  | none => Except.error PyErr.valueError
  | some s =>
      match parseDate endStr with
      | none => Except.error PyErr.valueError
      | some e => Except.ok (dateRangeLoop e s)

/-! ### Task generation and aggregation (main.py) -/

/-- Configuration fields read by `generate_download_tasks`. -/
structure MainConfig where
  start_date : String
  end_date : String
  trading_pairs : List String
  data_types : List (String × Bool)
  kline_intervals : List String

/-- One entry of the task list built in main.py:56-65. -/
structure SymbolTask where
  symbol : String
  date : String
deriving DecidableEq, Repr

/-- main.py:25-68 `generate_download_tasks`.  Exceptions propagate as
`Except.error`: a malformed date raises `ValueError` inside
`generate_date_range`, and an empty date list raises `IndexError` at
the `dates[0]` access in the log line (main.py:34).  If no trading
pairs are configured the symbol list comes from the exchange API
(`api`); an API failure is caught and an empty task list returned
(main.py:45-47).  An empty symbol list yields an empty task list, not
an error. -/
def generate_download_tasks (cfg : MainConfig) (today : String)
    (api : Except String (List String)) : Except PyErr (List SymbolTask) :=
  match generate_date_range today cfg.start_date cfg.end_date with
  | Except.error e => Except.error e
  | Except.ok dates =>
      if dates.isEmpty then Except.error PyErr.indexError
      else
        match (if cfg.trading_pairs.isEmpty then api
               else Except.ok cfg.trading_pairs) with
        | Except.error _ => Except.ok []
        | Except.ok pairs =>
            Except.ok (dates.flatMap (fun date =>
              pairs.map (fun symbol => ⟨symbol, date⟩)))

/-- One `download_file` invocation issued by `download_symbol_data`. -/
structure FileTask where
  symbol : String
  data_type : String
  date : String
  interval : Option String
deriving DecidableEq, Repr

/-- downloader.py:148-171 `download_symbol_data`, as the ordered list
of `download_file` invocations it performs: data types in mapping
order; interval-bearing types expand over the interval list (skipped
with a warning when the list is empty); disabled types are skipped. -/
def expandSymbolData (symbol date : String) (data_types : List (String × Bool))
    (kline_intervals : List String) : List FileTask :=
  data_types.flatMap (fun p =>
    if p.2 = false then []
    else if isKlineType p.1 then
      if kline_intervals.isEmpty then []
      else kline_intervals.map (fun iv => ⟨symbol, p.1, date, some iv⟩)
    else [⟨symbol, p.1, date, none⟩])

/-- Key of the `results` dict entry for one invocation
(downloader.py:163,169). -/
def resultKey (t : FileTask) : String :=
  match t.interval with
  | some iv => t.data_type ++ "_" ++ iv
  | none => t.data_type

/-- Python dict assignment `d[k] = v`: updates in place, keeping the
key's original position, or appends a new key. -/
def dictInsert (l : List (String × Bool)) (k : String) (v : Bool) :
    List (String × Bool) :=
  if l.any (fun p => p.1 == k) then
    l.map (fun p => if p.1 == k then (p.1, v) else p)
  else l ++ [(k, v)]

/-- The `results` dict built by `download_symbol_data`; `run` gives the
boolean outcome of each `download_file` call. -/
def download_symbol_data (run : FileTask → Bool) (symbol date : String)
    (data_types : List (String × Bool)) (kline_intervals : List String) :
    List (String × Bool) :=
  (expandSymbolData symbol date data_types kline_intervals).foldl
    (fun acc t => dictInsert acc (resultKey t) (run t)) []

/-- Per-task aggregate computed in main.py:91-101. -/
structure TaskResult where
  success_count : Nat
  total_count : Nat
  success_rate : ℚ
deriving DecidableEq, Repr

/-- main.py:71-112 `download_task` (the normal, non-raising path). -/
def download_task (run : FileTask → Bool) (data_types : List (String × Bool))
    (kline_intervals : List String) (t : SymbolTask) : TaskResult :=
  let results := download_symbol_data run t.symbol t.date data_types kline_intervals
  let success_count := (results.filter (fun p => p.2)).length
  let total_count := results.length
  ⟨success_count, total_count,
    if 0 < total_count then (success_count : ℚ) / (total_count : ℚ) else 0⟩

/-- main.py:161-162: `run_downloads` counts a task as successful
exactly when its `success_rate` equals `1.0`. -/
def countSuccessfulTasks (rs : List TaskResult) : Nat :=
  (rs.filter (fun r => decide (r.success_rate = 1))).length

/-- Enabled data types that do not require an interval. -/
def enabledSimpleCount (data_types : List (String × Bool)) : Nat :=
  (data_types.filter (fun p => p.2 && !(isKlineType p.1))).length

/-- Enabled data types that require an interval. -/
def enabledKlineCount (data_types : List (String × Bool)) : Nat :=
  (data_types.filter (fun p => p.2 && isKlineType p.1)).length

/-- All `download_file` invocations of a run, in execution order of a
sequential traversal: tasks in list order, each expanded by
`expandSymbolData`. -/
def allFileTasks (tasks : List SymbolTask) (data_types : List (String × Bool))
    (kline_intervals : List String) : List FileTask :=
  tasks.flatMap (fun t => expandSymbolData t.symbol t.date data_types kline_intervals)

/-- downloader.py:47-131 `download_file`.  The `ValueError` raised by
`build_download_url` propagates to the outer handler (line 129) which
returns `False`; otherwise the resume check (line 66) may skip the
task, and the retry loop runs. -/
def download_file (cfg : DlConfig) (resp : Nat → HttpResp)
    (removeFails : Bool) (t : TaskSpec) (fs : Fs) : DlResult :=
  match build_download_url t.base_url t.data_type t.symbol t.date t.interval with
  | Except.error _ => ⟨false, fs, []⟩
  | Except.ok _ =>
      if is_download_needed fs t.csv_path cfg.overwrite_existing then
        attemptLoop cfg resp removeFails t.file_dir t.zip_path
          cfg.retry_attempts 0 fs []
      else ⟨true, fs, []⟩

/-! ### Helper lemmas -/

lemma is_download_needed_false_iff (fs : Fs) (csv : String) :
    is_download_needed fs csv false = false ↔
      ∃ fd, fs csv = some fd ∧ fd.readable = true ∧ 100 ≤ fd.size ∧ 2 ≤ fd.lines := by
  unfold is_download_needed
  cases h : fs csv with
  | none => simp
  | some fd =>
      constructor
      · intro hif
        simp at hif
        exact ⟨fd, rfl, hif.2.1, hif.1, by omega⟩
      · rintro ⟨fd', hfd', hread, hsize, hlines⟩
        injection hfd' with e
        subst e
        simp [hread]
        omega

lemma csv_path_ne_zip_path (t : TaskSpec) : t.csv_path ≠ t.zip_path := by
  unfold TaskSpec.csv_path TaskSpec.zip_path get_output_filename
  cases hi : t.interval with
  | none =>
      intro h
      have hd := congrArg String.data h
      simp [String.data_append, List.append_right_inj] at hd
  | some iv =>
      intro h
      have hd := congrArg String.data h
      simp [String.data_append, List.append_right_inj] at hd

/-- Trace pattern of a run in which every attempt fails with a
retriable error: `r` blocks of throttle-sleep + request, separated by
retry sleeps. -/
def errTrace : Nat → List Ev
  | 0 => []
  | 1 => [Ev.sleepRate, Ev.httpGet]
  | r + 2 => Ev.sleepRate :: Ev.httpGet :: Ev.sleepRetry :: errTrace (r + 1)

lemma errTrace_count_httpGet : ∀ r, (errTrace r).count Ev.httpGet = r := by
  intro r
  induction r with
  | zero => rfl
  | succ k ih =>
      cases k with
      | zero => rfl
      | succ k' =>
          simp only [errTrace, List.count_cons]
          rw [ih]
          simp

lemma errTrace_count_sleepRate : ∀ r, (errTrace r).count Ev.sleepRate = r := by
  intro r
  induction r with
  | zero => rfl
  | succ k ih =>
      cases k with
      | zero => rfl
      | succ k' =>
          simp only [errTrace, List.count_cons]
          rw [ih]
          simp

lemma errTrace_count_sleepRetry : ∀ r, (errTrace r).count Ev.sleepRetry = r - 1 := by
  intro r
  induction r with
  | zero => rfl
  | succ k ih =>
      cases k with
      | zero => rfl
      | succ k' =>
          simp only [errTrace, List.count_cons]
          rw [ih]
          simp

/-- Whenever at least one loop iteration runs, an HTTP request is
issued. -/
lemma attemptLoop_get_mem (cfg : DlConfig) (resp : Nat → HttpResp) (rf : Bool)
    (dir zp : String) :
    ∀ r a fs tr, 0 < r →
      Ev.httpGet ∈ (attemptLoop cfg resp rf dir zp r a fs tr).trace := by
  intro r
  induction r with
  | zero => intro a fs tr h; omega
  | succ r' ih =>
      intro a fs tr _
      rw [attemptLoop]
      cases resp a with
      | notFound => simp
      | reqError =>
          by_cases hr' : 0 < r'
          · simp only [if_pos hr']
            exact ih (a + 1) fs (tr ++ [Ev.sleepRate, Ev.httpGet] ++ [Ev.sleepRetry]) hr'
          · simp only [if_neg hr']
            simp
      | ok arc =>
          by_cases h1 : cfg.auto_extract <;> by_cases h2 : arc.extractable <;>
            by_cases h3 : cfg.delete_zip <;> by_cases h4 : rf <;>
            simp [h1, h2, h3, h4]

/-- When every attempt yields a retriable error, the loop runs all `r`
iterations, leaves the filesystem untouched, returns `false`, and its
trace is `errTrace r` appended to the accumulator. -/
lemma attemptLoop_allErr (cfg : DlConfig) (resp : Nat → HttpResp) (rf : Bool)
    (dir zp : String) :
    ∀ r a fs tr, 0 < r → (∀ i, i < r → resp (a + i) = HttpResp.reqError) →
      attemptLoop cfg resp rf dir zp r a fs tr = ⟨false, fs, tr ++ errTrace r⟩ := by
  intro r
  induction r with
  | zero => intro a fs tr h; omega
  | succ r' ih =>
      intro a fs tr _ herr
      have h0 : resp a = HttpResp.reqError := by
        have := herr 0 (by omega)
        simpa using this
      rw [attemptLoop, h0]
      cases r' with
      | zero => simp [errTrace]
      | succ k =>
          simp only [Nat.zero_lt_succ, if_pos]
          rw [ih (a + 1) fs (tr ++ [Ev.sleepRate, Ev.httpGet] ++ [Ev.sleepRetry])
            (by omega) (fun i hi => by
              have := herr (i + 1) (by omega)
              rw [show a + (i + 1) = a + 1 + i by omega] at this
              exact this)]
          simp [errTrace]

lemma parseDate_m_le (s : String) (dt : Date) (h : parseDate s = some dt) :
    dt.m ≤ 12 := by
  unfold parseDate at h
  split at h
  · dsimp only at h
    split_ifs at h with h1 h2
    · injection h with e
      subst e
      exact h2.2.2.1
  · cases h

lemma flatMap_map_nil_symbols (dates : List String) :
    dates.flatMap (fun date => ([] : List String).map
      (fun symbol => (⟨symbol, date⟩ : SymbolTask))) = [] := by
  induction dates with
  | nil => rfl
  | cons d rest ih =>
      simp only [List.flatMap_cons, List.map_nil, List.nil_append]
      simp only [List.map_nil] at ih
      exact ih

lemma expandSymbolData_cons (symbol date : String) (p : String × Bool)
    (rest : List (String × Bool)) (ivs : List String) :
    expandSymbolData symbol date (p :: rest) ivs
      = (if p.2 = false then []
         else if isKlineType p.1 then
           (if ivs.isEmpty then []
            else ivs.map (fun iv => ⟨symbol, p.1, date, some iv⟩))
         else [⟨symbol, p.1, date, none⟩])
        ++ expandSymbolData symbol date rest ivs := by
  simp [expandSymbolData]

lemma enabledSimpleCount_cons (p : String × Bool) (rest : List (String × Bool)) :
    enabledSimpleCount (p :: rest)
      = (if p.2 && !(isKlineType p.1) then 1 else 0) + enabledSimpleCount rest := by
  unfold enabledSimpleCount
  rw [List.filter_cons]
  split
  · simp
    omega
  · simp

lemma enabledKlineCount_cons (p : String × Bool) (rest : List (String × Bool)) :
    enabledKlineCount (p :: rest)
      = (if p.2 && isKlineType p.1 then 1 else 0) + enabledKlineCount rest := by
  unfold enabledKlineCount
  rw [List.filter_cons]
  split
  · simp
    omega
  · simp

/-- The expansion of one symbol+date over the data-type map issues one
invocation per enabled simple type and one per enabled interval type
per interval. -/
lemma expandSymbolData_length (symbol date : String) (dts : List (String × Bool))
    (ivs : List String) :
    (expandSymbolData symbol date dts ivs).length
      = enabledSimpleCount dts + enabledKlineCount dts * ivs.length := by
  induction dts with
  | nil => simp [expandSymbolData, enabledSimpleCount, enabledKlineCount]
  | cons p rest ih =>
      rw [expandSymbolData_cons, List.length_append, ih,
        enabledSimpleCount_cons, enabledKlineCount_cons]
      by_cases h2 : p.2 = false
      · simp [h2]
      · have h2t : p.2 = true := by revert h2; cases p.2 <;> simp
        by_cases hk : isKlineType p.1
        · by_cases hiv : ivs.isEmpty
          · have hlen : ivs.length = 0 := by
              cases ivs
              · rfl
              · simp at hiv
            simp [h2t, hk, hiv, hlen]
          · simp [h2t, hk, hiv]
            ring
        · simp [h2t, hk]
          ring

lemma allFileTasks_cons (t : SymbolTask) (rest : List SymbolTask)
    (dts : List (String × Bool)) (ivs : List String) :
    allFileTasks (t :: rest) dts ivs
      = expandSymbolData t.symbol t.date dts ivs ++ allFileTasks rest dts ivs := by
  simp [allFileTasks]

lemma allFileTasks_length (tasks : List SymbolTask) (dts : List (String × Bool))
    (ivs : List String) :
    (allFileTasks tasks dts ivs).length
      = tasks.length * (enabledSimpleCount dts + enabledKlineCount dts * ivs.length) := by
  induction tasks with
  | nil => simp [allFileTasks]
  | cons t rest ih =>
      rw [allFileTasks_cons, List.length_append, expandSymbolData_length, ih,
        List.length_cons]
      ring

lemma symbolTasks_length (dates : List String) (pairs : List String) :
    (dates.flatMap (fun date => pairs.map
        (fun symbol => (⟨symbol, date⟩ : SymbolTask)))).length
      = dates.length * pairs.length := by
  induction dates with
  | nil => simp
  | cons d rest ih =>
      simp only [List.flatMap_cons, List.length_append, List.length_map,
        List.length_cons, ih]
      ring

lemma allFileTasks_append (l1 l2 : List SymbolTask) (dts : List (String × Bool))
    (ivs : List String) :
    allFileTasks (l1 ++ l2) dts ivs
      = allFileTasks l1 dts ivs ++ allFileTasks l2 dts ivs := by
  simp [allFileTasks]

lemma allFileTasks_map_pairs (date : String) (pairs : List String)
    (dts : List (String × Bool)) (ivs : List String) :
    allFileTasks (pairs.map (fun symbol => ⟨symbol, date⟩)) dts ivs
      = pairs.flatMap (fun symbol => expandSymbolData symbol date dts ivs) := by
  induction pairs with
  | nil => rfl
  | cons p rest ih =>
      rw [List.map_cons, allFileTasks_cons, ih, List.flatMap_cons]

/-- The flattened invocation list is date-major, then symbol, then the
per-symbol expansion order. -/
lemma allFileTasks_order (dates : List String) (pairs : List String)
    (dts : List (String × Bool)) (ivs : List String) :
    allFileTasks (dates.flatMap (fun date =>
        pairs.map (fun symbol => ⟨symbol, date⟩))) dts ivs
      = dates.flatMap (fun date => pairs.flatMap (fun symbol =>
          expandSymbolData symbol date dts ivs)) := by
  induction dates with
  | nil => rfl
  | cons d rest ih =>
      rw [List.flatMap_cons, allFileTasks_append, ih, allFileTasks_map_pairs,
        List.flatMap_cons]

/-! ### Concrete fixtures used by witnesses and counterexamples -/

/-- A representative simple-data-type task. -/
def sampleTask : TaskSpec :=
  ⟨"https://data.binance.vision/data/futures/um/daily/", "./data",
   "BTCUSDT", "aggTrades", "2024-08-01", none⟩

/-- An empty output directory. -/
def emptyFs : Fs := fun _ => none

/-- A filesystem already holding a complete extracted csv for
`sampleTask`. -/
def goodFs : Fs :=
  fun p => if p = sampleTask.csv_path then some ⟨200, 5, true⟩ else none

/-- A corrupt archive: downloadable, not extractable. -/
def corruptArc : Archive := ⟨⟨1000, 0, true⟩, false, []⟩

/-- A healthy archive extracting a complete csv for `sampleTask`. -/
def goodArc : Archive :=
  ⟨⟨1000, 0, true⟩, true,
   [(get_output_filename "BTCUSDT" "aggTrades" "2024-08-01" none "csv",
     ⟨200, 5, true⟩)]⟩

/-- An archive whose extracted csv is header-only (1 line, below the
100-byte threshold): extraction succeeds but the resume check will
never treat the result as complete. -/
def headerOnlyArc : Archive :=
  ⟨⟨300, 0, true⟩, true,
   [(get_output_filename "BTCUSDT" "aggTrades" "2024-08-01" none "csv",
     ⟨50, 1, true⟩)]⟩

/-- Generator fixture: 3 days, 2 symbols, 1 enabled simple type, 1
disabled type, 1 enabled interval type, 2 intervals. -/
def c9Cfg : MainConfig :=
  ⟨"2024-08-01", "2024-08-03", ["BTCUSDT", "ETHUSDT"],
   [("aggTrades", true), ("trades", false), ("klines", true)], ["1m", "1h"]⟩

/-! ### Claim theorems -/

/-- C1: with overwrite disabled (and a resolvable URL), `download_file`
skips — returns success with an empty effect trace, in particular no
HTTP request — if and only if the destination csv exists, is readable,
has size at least 100 bytes and more than one line; in every other
case an HTTP request is issued. -/
theorem resume_skip_iff (cfg : DlConfig) (resp : Nat → HttpResp) (rf : Bool)
    (t : TaskSpec) (fs : Fs) (u : String)
    (hov : cfg.overwrite_existing = false)
    (hurl : build_download_url t.base_url t.data_type t.symbol t.date t.interval
      = Except.ok u)
    (hr : 0 < cfg.retry_attempts) :
    (((download_file cfg resp rf t fs).ok = true
        ∧ (download_file cfg resp rf t fs).trace = [])
      ↔ (∃ fd, fs t.csv_path = some fd ∧ fd.readable = true
            ∧ 100 ≤ fd.size ∧ 2 ≤ fd.lines))
    ∧ ((¬ ∃ fd, fs t.csv_path = some fd ∧ fd.readable = true
            ∧ 100 ≤ fd.size ∧ 2 ≤ fd.lines) →
        Ev.httpGet ∈ (download_file cfg resp rf t fs).trace) := by
  simp only [download_file, hurl, hov]
  cases hn : is_download_needed fs t.csv_path false with
  | false =>
      simp only [Bool.false_eq_true, if_false]
      have hsk := (is_download_needed_false_iff fs t.csv_path).mp hn
      constructor
      · constructor
        · intro _
          exact hsk
        · intro _
          simp
      · intro hns
        exact absurd hsk hns
  | true =>
      simp only [if_true]
      have hmem := attemptLoop_get_mem cfg resp rf t.file_dir t.zip_path
        cfg.retry_attempts 0 fs [] hr
      constructor
      · constructor
        · rintro ⟨hok, htr⟩
          rw [htr] at hmem
          simp at hmem
        · intro hsk
          have := (is_download_needed_false_iff fs t.csv_path).mpr hsk
          rw [this] at hn
          cases hn
      · intro _
        exact hmem

theorem resume_skip_iff_witness :
    (download_file ⟨3, true, true, false⟩ (fun _ => HttpResp.reqError) false
        sampleTask goodFs).ok = true
      ∧ (download_file ⟨3, true, true, false⟩ (fun _ => HttpResp.reqError) false
        sampleTask goodFs).trace = [] :=
  (resume_skip_iff ⟨3, true, true, false⟩ (fun _ => HttpResp.reqError) false
      sampleTask goodFs _ rfl rfl (by decide)).1.mpr
    ⟨⟨200, 5, true⟩, by decide, rfl, by decide, by decide⟩

/-- C2: when every attempt yields a transport error or a non-404
non-success status, `download_file` performs exactly `retry_attempts`
HTTP requests, each preceded by a rate-limit sleep, with a retry sleep
between consecutive attempts (`retry_attempts - 1` of them), leaves
the filesystem unchanged and returns `false` (Failed); the trace is
exactly `errTrace retry_attempts`. -/
theorem retry_exhaustion (cfg : DlConfig) (resp : Nat → HttpResp) (rf : Bool)
    (t : TaskSpec) (fs : Fs) (u : String)
    (hurl : build_download_url t.base_url t.data_type t.symbol t.date t.interval
      = Except.ok u)
    (hneed : is_download_needed fs t.csv_path cfg.overwrite_existing = true)
    (hr : 0 < cfg.retry_attempts)
    (herr : ∀ i, i < cfg.retry_attempts → resp i = HttpResp.reqError) :
    download_file cfg resp rf t fs = ⟨false, fs, errTrace cfg.retry_attempts⟩
    ∧ (download_file cfg resp rf t fs).trace.count Ev.httpGet = cfg.retry_attempts
    ∧ (download_file cfg resp rf t fs).trace.count Ev.sleepRate = cfg.retry_attempts
    ∧ (download_file cfg resp rf t fs).trace.count Ev.sleepRetry
        = cfg.retry_attempts - 1 := by
  have hmain : download_file cfg resp rf t fs
      = ⟨false, fs, errTrace cfg.retry_attempts⟩ := by
    simp only [download_file, hurl, hneed, if_true]
    have h := attemptLoop_allErr cfg resp rf t.file_dir t.zip_path
      cfg.retry_attempts 0 fs [] hr (fun i hi => by simpa using herr i hi)
    rw [h]
    simp
  refine ⟨hmain, ?_, ?_, ?_⟩ <;> rw [hmain]
  · exact errTrace_count_httpGet _
  · exact errTrace_count_sleepRate _
  · exact errTrace_count_sleepRetry _

theorem retry_exhaustion_witness :
    download_file ⟨3, true, true, false⟩ (fun _ => HttpResp.reqError) false
        sampleTask emptyFs = ⟨false, emptyFs, errTrace 3⟩
    ∧ (download_file ⟨3, true, true, false⟩ (fun _ => HttpResp.reqError) false
        sampleTask emptyFs).trace.count Ev.sleepRetry = 2 := by
  have h := retry_exhaustion ⟨3, true, true, false⟩ (fun _ => HttpResp.reqError)
    false sampleTask emptyFs _ rfl (by decide) (by decide) (fun i _ => rfl)
  exact ⟨h.1, h.2.2.2⟩

/-- C3: a 404 on the first attempt fails the task after exactly one
HTTP request: the trace is one rate-limit sleep and one request, no
retry sleep ever happens, and no archive bytes are written (the
filesystem is unchanged). -/
theorem notFound_immediate_fail (cfg : DlConfig) (resp : Nat → HttpResp) (rf : Bool)
    (t : TaskSpec) (fs : Fs) (u : String)
    (hurl : build_download_url t.base_url t.data_type t.symbol t.date t.interval
      = Except.ok u)
    (hneed : is_download_needed fs t.csv_path cfg.overwrite_existing = true)
    (hr : 0 < cfg.retry_attempts)
    (h404 : resp 0 = HttpResp.notFound) :
    download_file cfg resp rf t fs = ⟨false, fs, [Ev.sleepRate, Ev.httpGet]⟩ := by
  simp only [download_file, hurl, hneed, if_true]
  obtain ⟨r', hr'⟩ : ∃ r', cfg.retry_attempts = r' + 1 :=
    ⟨cfg.retry_attempts - 1, by omega⟩
  rw [hr', attemptLoop, h404]
  simp

theorem notFound_immediate_fail_witness :
    download_file ⟨3, true, true, false⟩ (fun _ => HttpResp.notFound) false
      sampleTask emptyFs = ⟨false, emptyFs, [Ev.sleepRate, Ev.httpGet]⟩ :=
  notFound_immediate_fail ⟨3, true, true, false⟩ (fun _ => HttpResp.notFound)
    false sampleTask emptyFs _ rfl (by decide) (by decide) rfl

/-- C4: with auto-extract enabled, if the downloaded archive cannot be
extracted, `download_file` returns `false` (Failed) after writing the
archive bytes: the zip file is present afterwards (even when
delete-zip is configured — `cfg.delete_zip` is arbitrary here), no
other path changed, and the extracted csv is absent whenever it was
absent before. -/
theorem extract_failure_keeps_zip (cfg : DlConfig) (resp : Nat → HttpResp)
    (rf : Bool) (t : TaskSpec) (fs : Fs) (u : String) (a : Archive)
    (hurl : build_download_url t.base_url t.data_type t.symbol t.date t.interval
      = Except.ok u)
    (hneed : is_download_needed fs t.csv_path cfg.overwrite_existing = true)
    (hr : 0 < cfg.retry_attempts)
    (h200 : resp 0 = HttpResp.ok a)
    (hext : a.extractable = false)
    (hauto : cfg.auto_extract = true) :
    (download_file cfg resp rf t fs).ok = false
    ∧ (download_file cfg resp rf t fs).fs t.zip_path = some a.zipData
    ∧ (∀ p, p ≠ t.zip_path → (download_file cfg resp rf t fs).fs p = fs p)
    ∧ (fs t.csv_path = none → (download_file cfg resp rf t fs).fs t.csv_path = none)
    ∧ (download_file cfg resp rf t fs).trace = [Ev.sleepRate, Ev.httpGet] := by
  have hmain : download_file cfg resp rf t fs
      = ⟨false, fs.update t.zip_path (some a.zipData), [Ev.sleepRate, Ev.httpGet]⟩ := by
    simp only [download_file, hurl, hneed, if_true]
    obtain ⟨r', hr'⟩ : ∃ r', cfg.retry_attempts = r' + 1 :=
      ⟨cfg.retry_attempts - 1, by omega⟩
    rw [hr', attemptLoop, h200]
    simp [hauto, hext]
  rw [hmain]
  refine ⟨rfl, ?_, ?_, ?_, rfl⟩
  · simp [Fs.update]
  · intro p hp
    simp [Fs.update, hp]
  · intro h0
    simp [Fs.update, csv_path_ne_zip_path t, h0]

theorem extract_failure_keeps_zip_witness :
    (download_file ⟨3, true, true, false⟩ (fun _ => HttpResp.ok corruptArc) false
        sampleTask emptyFs).ok = false
    ∧ (download_file ⟨3, true, true, false⟩ (fun _ => HttpResp.ok corruptArc) false
        sampleTask emptyFs).fs sampleTask.zip_path = some corruptArc.zipData
    ∧ (download_file ⟨3, true, true, false⟩ (fun _ => HttpResp.ok corruptArc) false
        sampleTask emptyFs).fs sampleTask.csv_path = none := by
  have h := extract_failure_keeps_zip ⟨3, true, true, false⟩
    (fun _ => HttpResp.ok corruptArc) false sampleTask emptyFs _ corruptArc
    rfl (by decide) (by decide) rfl rfl rfl
  exact ⟨h.1, h.2.1, h.2.2.2.1 rfl⟩

/-- C5 counterexample: extraction succeeds, delete-zip-after-extract is
enabled, and the deletion of the archive raises (`removeFails = true`):
`download_file` returns `false` (Failed), refuting the claim that the
outcome remains Succeeded — the `OSError` from `os.remove` is caught
by the generic `except Exception` handler, which returns `False`. -/
theorem delete_zip_failure_counterexample :
    (download_file ⟨3, true, true, false⟩ (fun _ => HttpResp.ok goodArc) true
      sampleTask emptyFs).ok = false := by decide

/-- C5 (amended): if extraction succeeds, delete-zip is enabled and the
archive deletion fails, the task outcome is `false` (Failed) — the
deletion failure downgrades the outcome instead of being only
logged. -/
theorem delete_zip_failure_fails_task (cfg : DlConfig) (resp : Nat → HttpResp)
    (t : TaskSpec) (fs : Fs) (u : String) (a : Archive)
    (hurl : build_download_url t.base_url t.data_type t.symbol t.date t.interval
      = Except.ok u)
    (hneed : is_download_needed fs t.csv_path cfg.overwrite_existing = true)
    (hr : 0 < cfg.retry_attempts)
    (h200 : resp 0 = HttpResp.ok a)
    (hext : a.extractable = true)
    (hauto : cfg.auto_extract = true)
    (hdel : cfg.delete_zip = true) :
    (download_file cfg resp true t fs).ok = false := by
  simp only [download_file, hurl, hneed, if_true]
  obtain ⟨r', hr'⟩ : ∃ r', cfg.retry_attempts = r' + 1 :=
    ⟨cfg.retry_attempts - 1, by omega⟩
  rw [hr', attemptLoop, h200]
  simp [hauto, hext, hdel]

theorem delete_zip_failure_fails_task_witness :
    (download_file ⟨4, true, true, false⟩ (fun _ => HttpResp.ok goodArc) true
      sampleTask emptyFs).ok = false :=
  delete_zip_failure_fails_task ⟨4, true, true, false⟩
    (fun _ => HttpResp.ok goodArc) sampleTask emptyFs _ goodArc rfl (by decide)
    (by decide) rfl rfl rfl rfl

/-- C6 counterexample: a first run that ends Succeeded (here with the
default configuration and an archive whose extracted csv is header-only)
does not make the second run skip: the second run issues an HTTP
request, refuting "second run yields Skipped whenever the first ended
Succeeded". -/
theorem idempotence_counterexample :
    (download_file ⟨3, true, true, false⟩ (fun _ => HttpResp.ok headerOnlyArc) false
        sampleTask emptyFs).ok = true
    ∧ Ev.httpGet ∈ (download_file ⟨3, true, true, false⟩
        (fun _ => HttpResp.ok headerOnlyArc) false sampleTask
        (download_file ⟨3, true, true, false⟩ (fun _ => HttpResp.ok headerOnlyArc)
          false sampleTask emptyFs).fs).trace := by decide

/-- C6 (amended): if the first run ended Succeeded and left a complete
extracted csv at the destination (readable, at least 100 bytes, more
than one line — which requires auto-extract and an archive containing
such a csv), then a second run with overwrite disabled skips: it
returns success, changes nothing, and issues no HTTP request. -/
theorem idempotent_resume (cfg : DlConfig) (resp resp' : Nat → HttpResp)
    (rf rf' : Bool) (t : TaskSpec) (fs : Fs) (u : String) (fd : FileData)
    (hov : cfg.overwrite_existing = false)
    (hurl : build_download_url t.base_url t.data_type t.symbol t.date t.interval
      = Except.ok u)
    (_h1 : (download_file cfg resp rf t fs).ok = true)
    (hcsv : (download_file cfg resp rf t fs).fs t.csv_path = some fd)
    (hread : fd.readable = true) (hsize : 100 ≤ fd.size) (hlines : 2 ≤ fd.lines) :
    download_file cfg resp' rf' t ((download_file cfg resp rf t fs).fs)
      = ⟨true, (download_file cfg resp rf t fs).fs, []⟩ := by
  have hskip : is_download_needed ((download_file cfg resp rf t fs).fs) t.csv_path
      cfg.overwrite_existing = false := by
    rw [hov]
    exact (is_download_needed_false_iff _ _).mpr ⟨fd, hcsv, hread, hsize, hlines⟩
  generalize (download_file cfg resp rf t fs).fs = fs1 at hskip ⊢
  simp only [download_file, hurl, hskip, Bool.false_eq_true, if_false]

theorem idempotent_resume_witness :
    download_file ⟨3, true, true, false⟩ (fun _ => HttpResp.notFound) false
        sampleTask
        ((download_file ⟨3, true, true, false⟩ (fun _ => HttpResp.ok goodArc) false
          sampleTask emptyFs).fs)
      = ⟨true, (download_file ⟨3, true, true, false⟩ (fun _ => HttpResp.ok goodArc)
          false sampleTask emptyFs).fs, []⟩ :=
  idempotent_resume ⟨3, true, true, false⟩ (fun _ => HttpResp.ok goodArc)
    (fun _ => HttpResp.notFound) false false sampleTask emptyFs _ ⟨200, 5, true⟩
    rfl rfl (by decide) (by decide) rfl (by decide) (by decide)

/-- C7 counterexample: for the interval-bearing data type `klines`, the
URL the code builds has filename `BTCUSDT-1m-2024-08-01.zip`, while the
spec's pattern demands `BTCUSDT-1m-klines-2024-08-01.zip`: the archive
filename does not contain the data_type segment, and the two URL
schemes disagree at this input. -/
theorem url_scheme_counterexample :
    build_download_url "https://data.binance.vision/data/futures/um/daily/"
        "klines" "BTCUSDT" "2024-08-01" (some "1m")
      = Except.ok
        "https://data.binance.vision/data/futures/um/daily/klines/BTCUSDT/1m/BTCUSDT-1m-2024-08-01.zip"
    ∧ build_download_url_spec "https://data.binance.vision/data/futures/um/daily/"
        "klines" "BTCUSDT" "2024-08-01" (some "1m")
      = Except.ok
        "https://data.binance.vision/data/futures/um/daily/klines/BTCUSDT/1m/BTCUSDT-1m-klines-2024-08-01.zip"
    ∧ ("https://data.binance.vision/data/futures/um/daily/klines/BTCUSDT/1m/BTCUSDT-1m-2024-08-01.zip"
        ≠ "https://data.binance.vision/data/futures/um/daily/klines/BTCUSDT/1m/BTCUSDT-1m-klines-2024-08-01.zip") :=
  ⟨rfl, rfl, by decide⟩

/-- C7 (amended): the resolved URL is
`{base_url}{data_type}/{symbol}/{interval}/{symbol}-{interval}-{date}.zip`
for interval-bearing data types (the data_type appears as a directory,
not in the archive filename; a missing interval raises `ValueError`),
and `{base_url}{data_type}/{symbol}/{symbol}-{data_type}-{date}.zip`
for all other data types. -/
theorem url_scheme_amended (base dt sym date iv : String) :
    (isKlineType dt = true →
      build_download_url base dt sym date (some iv)
        = Except.ok (base ++ dt ++ "/" ++ sym ++ "/" ++ iv ++ "/"
            ++ sym ++ "-" ++ iv ++ "-" ++ date ++ ".zip")
      ∧ build_download_url base dt sym date none
        = Except.error ("Interval is required for " ++ dt))
    ∧ (isKlineType dt = false → ∀ interval,
        build_download_url base dt sym date interval
          = Except.ok (base ++ dt ++ "/" ++ sym ++ "/"
              ++ sym ++ "-" ++ dt ++ "-" ++ date ++ ".zip")) := by
  constructor
  · intro h
    constructor <;> simp [build_download_url, h]
  · intro h interval
    simp [build_download_url, h]

theorem url_scheme_amended_witness :
    build_download_url "B/" "klines" "S" "D" (some "1m")
      = Except.ok ("B/" ++ "klines" ++ "/" ++ "S" ++ "/" ++ "1m" ++ "/"
          ++ "S" ++ "-" ++ "1m" ++ "-" ++ "D" ++ ".zip")
    ∧ build_download_url "B/" "aggTrades" "S" "D" none
      = Except.ok ("B/" ++ "aggTrades" ++ "/" ++ "S" ++ "/"
          ++ "S" ++ "-" ++ "aggTrades" ++ "-" ++ "D" ++ ".zip") :=
  ⟨((url_scheme_amended "B/" "klines" "S" "D" "1m").1 (by decide)).1,
   (url_scheme_amended "B/" "aggTrades" "S" "D" "x").2 (by decide) none⟩

/-- C8 counterexample: with a valid two-day date range, no configured
trading pairs and an API resolution returning the empty symbol list,
`generate_download_tasks` does not fail: it returns the empty task
list successfully, refuting "fails with ConfigurationError whenever
the symbol list is empty after resolution". -/
theorem config_error_counterexample :
    generate_download_tasks ⟨"2024-08-01", "2024-08-02", [], [("aggTrades", true)], []⟩
        "2099-01-01" (Except.ok []) = Except.ok []
    ∧ ∀ err, generate_download_tasks
        ⟨"2024-08-01", "2024-08-02", [], [("aggTrades", true)], []⟩
        "2099-01-01" (Except.ok []) ≠ Except.error err := by
  have h : generate_download_tasks
      ⟨"2024-08-01", "2024-08-02", [], [("aggTrades", true)], []⟩
      "2099-01-01" (Except.ok []) = Except.ok [] := by
    have hne : (dateRangeLoop ⟨2024, 8, 2⟩ ⟨2024, 8, 1⟩).isEmpty = false := by
      rw [dateRangeLoop, if_pos (by decide)]
      rfl
    unfold generate_download_tasks generate_date_range
    rw [show parseDate "2024-08-01" = some ⟨2024, 8, 1⟩ from by decide]
    dsimp only
    rw [show (if isLatest "2024-08-02" then "2099-01-01" else "2024-08-02")
        = "2024-08-02" from by decide]
    rw [show parseDate "2024-08-02" = some ⟨2024, 8, 2⟩ from by decide]
    dsimp only
    rw [hne]
    simp [flatMap_map_nil_symbols]
  refine ⟨h, fun err h' => ?_⟩
  rw [h] at h'
  cases h'

/-- C8 (amended): a malformed start or end date makes task generation
raise `ValueError` and an empty date range (start after end) makes it
raise `IndexError` at the `dates[0]` log access — both before any task
runs; but an empty symbol list after resolution raises nothing: the
generator returns an empty task list (which the caller reports as a
fatal condition without running tasks). -/
theorem config_failures (cfg : MainConfig) (today : String)
    (api : Except String (List String)) :
    (parseDate cfg.start_date = none →
      generate_download_tasks cfg today api = Except.error PyErr.valueError)
    ∧ (∀ s, parseDate cfg.start_date = some s →
        parseDate (if isLatest cfg.end_date then today else cfg.end_date) = none →
        generate_download_tasks cfg today api = Except.error PyErr.valueError)
    ∧ (∀ s e, parseDate cfg.start_date = some s →
        parseDate (if isLatest cfg.end_date then today else cfg.end_date) = some e →
        toRataDie e < toRataDie s →
        generate_download_tasks cfg today api = Except.error PyErr.indexError)
    ∧ (∀ s e, parseDate cfg.start_date = some s →
        parseDate (if isLatest cfg.end_date then today else cfg.end_date) = some e →
        toRataDie s ≤ toRataDie e →
        cfg.trading_pairs = [] → api = Except.ok [] →
        generate_download_tasks cfg today api = Except.ok []) := by
  refine ⟨?_, ?_, ?_, ?_⟩
  · intro h0
    unfold generate_download_tasks generate_date_range
    rw [h0]
  · intro s hs he0
    unfold generate_download_tasks generate_date_range
    rw [hs]
    dsimp only
    rw [he0]
  · intro s e hs he hlt
    unfold generate_download_tasks generate_date_range
    rw [hs]
    dsimp only
    rw [he]
    dsimp only
    have hempty : dateRangeLoop e s = [] := by
      rw [dateRangeLoop, if_neg (by omega)]
    rw [hempty]
    rfl
  · intro s e hs he hle hpairs hapi
    have hne : (dateRangeLoop e s).isEmpty = false := by
      rw [dateRangeLoop, if_pos hle]
      rfl
    unfold generate_download_tasks generate_date_range
    rw [hs]
    dsimp only
    rw [he]
    dsimp only
    rw [hne, hpairs, hapi]
    simp [flatMap_map_nil_symbols]

theorem config_failures_witness :
    generate_download_tasks ⟨"2024-13-01", "2024-08-02", ["BTCUSDT"], [], []⟩
        "2099-01-01" (Except.ok []) = Except.error PyErr.valueError
    ∧ generate_download_tasks ⟨"2024-08-02", "2024-08-01", ["BTCUSDT"], [], []⟩
        "2099-01-01" (Except.ok []) = Except.error PyErr.indexError :=
  ⟨(config_failures ⟨"2024-13-01", "2024-08-02", ["BTCUSDT"], [], []⟩
      "2099-01-01" (Except.ok [])).1 (by decide),
   (config_failures ⟨"2024-08-02", "2024-08-01", ["BTCUSDT"], [], []⟩
      "2099-01-01" (Except.ok [])).2.2.1 ⟨2024, 8, 2⟩ ⟨2024, 8, 1⟩
      (by decide) (by decide) (by decide)⟩

/-- C9: for a valid date range and a non-empty configured symbol list,
the generator succeeds; the flattened download-invocation list is
date-major, then symbol, then data-type in map order, then interval in
list order; its length is `days × symbols × (enabled_simple_types +
enabled_interval_types × intervals)`, and `days` is the inclusive day
count of the range. -/
theorem generator_count_and_order (cfg : MainConfig) (today : String)
    (api : Except String (List String)) (s e : Date)
    (hs : parseDate cfg.start_date = some s)
    (he : parseDate (if isLatest cfg.end_date then today else cfg.end_date) = some e)
    (hle : toRataDie s ≤ toRataDie e)
    (hp : cfg.trading_pairs ≠ []) :
    generate_download_tasks cfg today api
      = Except.ok ((dateRangeLoop e s).flatMap (fun date =>
          cfg.trading_pairs.map (fun symbol => ⟨symbol, date⟩)))
    ∧ allFileTasks ((dateRangeLoop e s).flatMap (fun date =>
          cfg.trading_pairs.map (fun symbol => ⟨symbol, date⟩)))
        cfg.data_types cfg.kline_intervals
      = (dateRangeLoop e s).flatMap (fun date =>
          cfg.trading_pairs.flatMap (fun symbol =>
            expandSymbolData symbol date cfg.data_types cfg.kline_intervals))
    ∧ (allFileTasks ((dateRangeLoop e s).flatMap (fun date =>
          cfg.trading_pairs.map (fun symbol => ⟨symbol, date⟩)))
        cfg.data_types cfg.kline_intervals).length
      = (dateRangeLoop e s).length * cfg.trading_pairs.length *
          (enabledSimpleCount cfg.data_types
            + enabledKlineCount cfg.data_types * cfg.kline_intervals.length)
    ∧ (dateRangeLoop e s).length = toRataDie e + 1 - toRataDie s := by
  have hne : (dateRangeLoop e s).isEmpty = false := by
    rw [dateRangeLoop, if_pos hle]
    rfl
  have hpe : cfg.trading_pairs.isEmpty = false := by
    cases h : cfg.trading_pairs
    · exact absurd h hp
    · rfl
  refine ⟨?_, ?_, ?_, ?_⟩
  · unfold generate_download_tasks generate_date_range
    rw [hs]
    dsimp only
    rw [he]
    dsimp only
    rw [hne, hpe]
    simp
  · exact allFileTasks_order (dateRangeLoop e s) cfg.trading_pairs
      cfg.data_types cfg.kline_intervals
  · rw [allFileTasks_length, symbolTasks_length, Nat.mul_assoc]
  · exact dateRangeLoop_length e s (parseDate_m_le cfg.start_date s hs)

theorem generator_count_and_order_witness :
    (allFileTasks ((dateRangeLoop ⟨2024, 8, 3⟩ ⟨2024, 8, 1⟩).flatMap (fun date =>
        c9Cfg.trading_pairs.map (fun symbol => ⟨symbol, date⟩)))
      c9Cfg.data_types c9Cfg.kline_intervals).length
      = (dateRangeLoop ⟨2024, 8, 3⟩ ⟨2024, 8, 1⟩).length * c9Cfg.trading_pairs.length *
          (enabledSimpleCount c9Cfg.data_types
            + enabledKlineCount c9Cfg.data_types * c9Cfg.kline_intervals.length)
    ∧ (dateRangeLoop ⟨2024, 8, 3⟩ ⟨2024, 8, 1⟩).length = 3 := by
  have h := generator_count_and_order c9Cfg "2099-01-01" (Except.ok [])
    ⟨2024, 8, 1⟩ ⟨2024, 8, 3⟩ (by decide) (by decide) (by decide) (by decide)
  exact ⟨h.2.2.1, h.2.2.2⟩

/-- C10: a symbol+date task whose data-type/interval expansion is empty
gets `success_rate = 0` (the guard avoids the division, it does not
divide by zero) with `total_count = 0`, and the run aggregation does
not count it among successful tasks. -/
theorem zero_expansion_zero_rate (run : FileTask → Bool)
    (dts : List (String × Bool)) (ivs : List String) (t : SymbolTask)
    (l1 l2 : List TaskResult)
    (h : expandSymbolData t.symbol t.date dts ivs = []) :
    (download_task run dts ivs t).success_rate = 0
    ∧ (download_task run dts ivs t).total_count = 0
    ∧ countSuccessfulTasks (l1 ++ download_task run dts ivs t :: l2)
        = countSuccessfulTasks (l1 ++ l2) := by
  have hres : download_symbol_data run t.symbol t.date dts ivs = [] := by
    unfold download_symbol_data
    rw [h]
    rfl
  have hdt : download_task run dts ivs t = ⟨0, 0, 0⟩ := by
    unfold download_task
    rw [hres]
    rfl
  rw [hdt]
  refine ⟨rfl, rfl, ?_⟩
  unfold countSuccessfulTasks
  rw [List.filter_append, List.filter_append, List.filter_cons]
  simp

theorem zero_expansion_zero_rate_witness :
    (download_task (fun _ => true) [("klines", true)] []
      ⟨"BTCUSDT", "2024-08-01"⟩).success_rate = 0
    ∧ countSuccessfulTasks [download_task (fun _ => true) [("klines", true)] []
        ⟨"BTCUSDT", "2024-08-01"⟩] = countSuccessfulTasks [] := by
  have h := zero_expansion_zero_rate (fun _ => true) [("klines", true)] []
    ⟨"BTCUSDT", "2024-08-01"⟩ [] [] (by decide)
  exact ⟨h.1, h.2.2⟩

end BinanceDB
